import Mathlib

/-!
Verification of the ingestion/normalization/scoring pipeline of the
security-dashboard repository.

The definitions below are a shallow embedding of the TypeScript source:

* `calculateSummary`   from `src/lib/DataContext.tsx`
* `SEVERITY_CONFIG`    from `src/types/index.ts`
* `analyzeSecurityData` from `src/lib/securityAnalyzer.ts`
* `processFile`        from `src/app/scans/page.tsx` (the per-row mapping)
* `exportCSV`          from `src/app/findings/page.tsx`
* `validateCSVData`    from `src/lib/csvParser.ts` and the `handleFile`
  upload handler of `src/components/CSVUploader.tsx`

JavaScript strings are modelled by `String`, numbers by `ℕ`/`ℤ`/`ℚ`
(all the arithmetic performed by the code stays within exactly
representable doubles on the inputs considered, so rational arithmetic
is faithful), `Math.round` by `jsRound` (round half towards +∞), and
JS objects used as count tables by finitely supported functions.
-/

/-- JS `a || b` for strings: the empty string (and an absent field, which we
also model as `""`) is falsy. -/
def jsOr (a b : String) : String := if a = "" then b else a

/-- JS `String.prototype.toUpperCase` restricted to ASCII, which is the only
range exercised by the data model. -/
def upperStr (s : String) : String := ⟨s.data.map Char.toUpper⟩

/-- JS `String.prototype.trim` (ASCII whitespace). -/
def trimStr (s : String) : String :=
  ⟨((s.data.dropWhile Char.isWhitespace).reverse.dropWhile Char.isWhitespace).reverse⟩

/-- `isPrefixL pre l` : `pre` is a prefix of `l` (char-list level, executable). -/
def isPrefixL : List Char → List Char → Bool
  | [], _ => true
  | _ :: _, [] => false
  | p :: ps, c :: cs => p == c && isPrefixL ps cs

/-- `containsL needle hay` : `needle` occurs as a contiguous substring of
`hay`; models JS `String.prototype.includes`. -/
def containsL (needle : List Char) : List Char → Bool
  | [] => needle.isEmpty
  | c :: cs => isPrefixL needle (c :: cs) || containsL needle cs

/-- JS `s.includes(sub)`. -/
def includes (s sub : String) : Bool := containsL sub.data s.data

/-- JS `s.startsWith(pre)`. -/
def jsStartsWith (s pre : String) : Bool := isPrefixL pre.data s.data

/-- JS `s.endsWith(suffix)`. -/
def endsWithStr (s suf : String) : Bool := isPrefixL suf.data.reverse s.data.reverse

/-- JS `Math.round`: round half towards positive infinity. -/
def jsRound (q : ℚ) : ℤ := Int.floor (q + 1/2)

/-! ## The Finding data model (`src/types/index.ts`) -/

/-- `Severity` from `src/types/index.ts`. -/
inductive Severity
  | CRITICAL | HIGH | MEDIUM | LOW | INFO
deriving DecidableEq, Repr

/-- `FindingState` from `src/types/index.ts`. -/
inductive FindingState
  | ACTIVE | INACTIVE | MUTED
deriving DecidableEq, Repr

/-- `FindingStatus` from `src/types/index.ts`. -/
inductive FindingStatus
  | FAIL | PASS
deriving DecidableEq, Repr

/-- The `weight` column of `SEVERITY_CONFIG` in `src/types/index.ts`
(the colour fields are irrelevant to the pipeline). -/
def SEVERITY_CONFIG_weight : Severity → ℕ
  | .CRITICAL => 10
  | .HIGH => 5
  | .MEDIUM => 2
  | .LOW => 1
  | .INFO => 0

/-- The `Finding` interface of `src/types/index.ts` (the optional `service`
field is never read by the pipeline and is omitted). -/
structure Finding where
  id : String
  finding_name : String
  finding_category : String
  finding_severity : Severity
  finding_state : FindingState
  finding_class : String
  status : FindingStatus
  resource_name : String
  resource_type : String
  resource_project : String
  resource_location : String
  finding_description : String
  remediation : String
  compliance : String
  scan_time : String
deriving DecidableEq, Repr

/-- The insertion order of the keys of the `bySeverity` object literal in
`calculateSummary` (`{ CRITICAL: 0, HIGH: 0, MEDIUM: 0, LOW: 0, INFO: 0 }`),
which is the order `Object.entries` enumerates them in. -/
def severityKeys : List Severity :=
  [.CRITICAL, .HIGH, .MEDIUM, .LOW, .INFO]

/-- `ScanSummary` from `src/types/index.ts`; the count-table objects are
modelled as finitely supported functions (a key the code never inserted
maps to `0`, indistinguishable from an inserted `0` for every claim). -/
structure ScanSummary where
  total : ℕ
  passed : ℕ
  failed : ℕ
  bySeverity : Severity → ℕ
  byService : String → ℕ
  byProject : String → ℕ
  threatScore : ℤ

/-- The service key derived in `calculateSummary`:
`f.resource_type?.split('.')[0] || 'unknown'`. -/
def serviceOf (f : Finding) : String :=
  jsOr ((f.resource_type.splitOn ".").headD "") "unknown"

/-- The pass predicate of `calculateSummary`:
`f.status === 'PASS' || f.finding_state === 'INACTIVE'`. -/
def passPred (f : Finding) : Bool :=
  f.status == .PASS || f.finding_state == .INACTIVE

/-- `calculateSummary` from `src/lib/DataContext.tsx`, lines 95-135. -/
def calculateSummary (findings : List Finding) : ScanSummary :=
  let bySeverity : Severity → ℕ :=
    fun s => findings.countP (fun f => f.finding_severity == s)
  let passed := findings.countP passPred
  let failed := findings.countP (fun f => !passPred f)
  let riskPoints : ℕ :=
    (severityKeys.map (fun s => bySeverity s * SEVERITY_CONFIG_weight s)).sum
  let maxPoints := findings.length * 10
  let threatScore : ℤ :=
    if maxPoints > 0 then jsRound ((riskPoints : ℚ) / (maxPoints : ℚ) * 100) else 0
  { total := findings.length
    passed := passed
    failed := failed
    bySeverity := bySeverity
    byService := fun k => findings.countP (fun f => serviceOf f == k)
    byProject := fun k => findings.countP (fun f => f.resource_project == k)
    threatScore := threatScore }

/-- The weighted risk-points total of a finding collection, as summed by
`calculateSummary` over `Object.entries(bySeverity)`. -/
def riskPointsOf (findings : List Finding) : ℕ :=
  (severityKeys.map
    (fun s => findings.countP (fun f => f.finding_severity == s) *
      SEVERITY_CONFIG_weight s)).sum

/-! ## The resource-inventory data model and `analyzeSecurityData`
(`src/lib/securityAnalyzer.ts`) -/

/-- The fields of the `ResourceData` row interface (`src/types/index.ts`)
that `analyzeSecurityData` reads.  Each Lean field models the CSV column of
the same name: `projectId` is `'Project ID'`, `instanceName` is
`'Instance Name'`, `shieldedVM` is `'Shielded VM'`, `apiAccessScopes` is
`'API Access Scopes'`, `externalIP` is `'External IP'`, `osAgentInstalled`
is `'OS Agent Installed'`, `deletionProtection` is `'Deletion Protection'`,
`ipForwarding` is `'IP Forwarding'`, `confidentialVM` is
`'Confidential VM'`.  A column missing at runtime is modelled as `""`
(every access in the source guards with `|| ''`). -/
structure ResourceData where
  projectId : String
  instanceName : String
  status : String
  zone : String
  shieldedVM : String
  apiAccessScopes : String
  externalIP : String
  osAgentInstalled : String
  deletionProtection : String
  ipForwarding : String
  confidentialVM : String
deriving DecidableEq, Repr

/-- Issue severities (`SecurityIssue.severity` in `src/types/index.ts`). -/
inductive IssueSeverity
  | critical | high | medium | low
deriving DecidableEq, Repr

/-- `SecurityIssue` from `src/types/index.ts`. -/
structure SecurityIssue where
  severity : IssueSeverity
  title : String
  count : ℕ
  description : String
  affectedResources : List String
deriving DecidableEq, Repr

/-- `SecurityMetrics` from `src/types/index.ts`, with the count-table
objects as finitely supported functions. -/
structure SecurityMetrics where
  totalResources : ℕ
  runningInstances : ℕ
  stoppedInstances : ℕ
  securityScore : ℤ
  issues : List SecurityIssue
  byProject : String → ℕ
  byStatus : String → ℕ
  byZone : String → ℕ

/-- The `severityOrder` table used to sort issues
(`{ critical: 0, high: 1, medium: 2, low: 3 }`). -/
def severityOrder : IssueSeverity → ℕ
  | .critical => 0
  | .high => 1
  | .medium => 2
  | .low => 3

/-- The per-severity deduction weight of the security score
(`critical ? 15 : high ? 10 : medium ? 5 : 2`). -/
def issueWeight : IssueSeverity → ℚ
  | .critical => 15
  | .high => 10
  | .medium => 5
  | .low => 2

/-- The affected-resource key: `` `${r['Project ID']}/${r['Instance Name']}` ``. -/
def resourceKey (r : ResourceData) : String :=
  r.projectId ++ "/" ++ r.instanceName

/-- Predicate 1: `shielded.includes('SecureBoot: Off') || shielded === 'Not Configured'`. -/
def shieldedOff (r : ResourceData) : Bool :=
  includes r.shieldedVM "SecureBoot: Off" || r.shieldedVM == "Not Configured"

/-- Predicate 2: `scopes.includes('All APIs (Full Access)') || scopes.includes('cloud-platform')`. -/
def fullApi (r : ResourceData) : Bool :=
  includes r.apiAccessScopes "All APIs (Full Access)" ||
    includes r.apiAccessScopes "cloud-platform"

/-- Predicate 3: `extIP && !extIP.startsWith('None')`. -/
def hasExternalIP (r : ResourceData) : Bool :=
  r.externalIP != "" && !(jsStartsWith r.externalIP "None")

/-- Predicate 4: `agent === 'No'`. -/
def noAgent (r : ResourceData) : Bool := r.osAgentInstalled == "No"

/-- Predicate 5: `protection === 'No'`. -/
def noDelProtection (r : ResourceData) : Bool := r.deletionProtection == "No"

/-- Predicate 6: `forwarding === 'Enabled'`. -/
def ipFwdEnabled (r : ResourceData) : Bool := r.ipForwarding == "Enabled"

/-- Predicate 7: `confidential === 'Disabled'`. -/
def confDisabled (r : ResourceData) : Bool := r.confidentialVM == "Disabled"

/-- The issue list of `analyzeSecurityData` in its fixed detection order,
before sorting.  Each block mirrors one `data.filter(...)` /
`if (....length > 0) issues.push({...})` pair of the source; the last block
is the conditionally suppressed Confidential-VM advisory, whose guard is
`noConfidentialVM.length > data.length * 0.8` and whose affected-resource
list is truncated with `.slice(0, 10)`. -/
def buildIssues (data : List ResourceData) : List SecurityIssue :=
  (let l := data.filter shieldedOff
   if l.length > 0 then
     [⟨.high, "Shielded VM Disabled", l.length,
       "VMs without Secure Boot enabled are vulnerable to boot-level malware.",
       l.map resourceKey⟩] else []) ++
  (let l := data.filter fullApi
   if l.length > 0 then
     [⟨.critical, "Full API Access Granted", l.length,
       "VMs with full cloud-platform scope can access all GCP APIs.",
       l.map resourceKey⟩] else []) ++
  (let l := data.filter hasExternalIP
   if l.length > 0 then
     [⟨.medium, "External IP Assigned", l.length,
       "VMs with external IPs are directly accessible from the internet.",
       l.map resourceKey⟩] else []) ++
  (let l := data.filter noAgent
   if l.length > 0 then
     [⟨.low, "OS Agent Not Installed", l.length,
       "VMs without OS Config agent cannot be managed for patches.",
       l.map resourceKey⟩] else []) ++
  (let l := data.filter noDelProtection
   if l.length > 0 then
     [⟨.low, "Deletion Protection Disabled", l.length,
       "VMs can be accidentally deleted without protection.",
       l.map resourceKey⟩] else []) ++
  (let l := data.filter ipFwdEnabled
   if l.length > 0 then
     [⟨.medium, "IP Forwarding Enabled", l.length,
       "VMs can route traffic, potentially bypassing network controls.",
       l.map resourceKey⟩] else []) ++
  (let l := data.filter confDisabled
   if (l.length : ℚ) > (data.length : ℚ) * 0.8 then
     [⟨.low, "Confidential VM Not Used", l.length,
       "Consider Confidential VMs for processing sensitive data.",
       (l.take 10).map resourceKey⟩] else [])

/-- `issues.sort((a, b) => severityOrder[a.severity] - severityOrder[b.severity])`:
JS `Array.prototype.sort` is stable and this comparator orders by severity
rank, so it is the stable sort by `severityOrder`. -/
def sortIssues (issues : List SecurityIssue) : List SecurityIssue :=
  List.insertionSort
    (fun a b => severityOrder a.severity ≤ severityOrder b.severity) issues

/-- One deduction step of the security-score loop:
`Math.min(weight * (issue.count / data.length) * 10, weight * 3)`. -/
def deduction (total : ℕ) (i : SecurityIssue) : ℚ :=
  min (issueWeight i.severity * ((i.count : ℚ) / (total : ℚ)) * 10)
    (issueWeight i.severity * 3)

/-- `analyzeSecurityData` from `src/lib/securityAnalyzer.ts`, lines 24-176. -/
def analyzeSecurityData (data : List ResourceData) : SecurityMetrics :=
  let issues := sortIssues (buildIssues data)
  let score : ℚ := issues.foldl (fun s i => s - deduction data.length i) 100
  { totalResources := data.length
    runningInstances := (data.filter (fun r => r.status == "RUNNING")).length
    stoppedInstances := (data.filter (fun r => r.status == "STOPPED")).length
    securityScore := max 0 (jsRound score)
    issues := issues
    byProject := fun k => data.countP (fun r => jsOr r.projectId "Unknown" == k)
    byStatus := fun k => data.countP (fun r => jsOr r.status "Unknown" == k)
    byZone := fun k => data.countP (fun r => jsOr r.zone "Unknown" == k) }

/-! ## The Finding CSV ingestion path (`processFile` in `src/app/scans/page.tsx`)

`Papa.parse(file, { header: true, skipEmptyLines: true })` hands `processFile`
one string-to-string mapping per data line, keyed by the header cells.  A row
mapping is modelled as an association list; a key that is absent behaves like
the empty string in every `row.k || ...` chain of the source (both
`undefined` and `''` are falsy, and the chains only ever compare against
non-empty literals). -/

/-- One parsed CSV row: header cell to value cell. -/
abbrev Row : Type := List (String × String)

/-- Field access `row['k']`, with an absent key modelled as `""`. -/
def rowGet (row : Row) (k : String) : String :=
  match row.find? (fun p => p.1 == k) with
  | some p => p.2
  | none => ""

/-- The object literal built by `processFile` for each row.  At runtime its
severity/state/status fields are plain strings: the `as` casts in the source
do not validate them, so this structure keeps them as `String`. -/
structure RawFinding where
  id : String
  finding_name : String
  finding_category : String
  finding_severity : String
  finding_state : String
  finding_class : String
  status : String
  resource_name : String
  resource_type : String
  resource_project : String
  resource_location : String
  finding_description : String
  remediation : String
  compliance : String
  scan_time : String
deriving DecidableEq, Repr

/-- The row-to-finding mapping of `processFile` (`src/app/scans/page.tsx`,
lines 36-52).  `now` stands for `new Date().toISOString()` and `i` for the
row index used for the synthetic id. -/
def toRawFinding (now : String) (i : ℕ) (row : Row) : RawFinding :=
  { id := "finding-" ++ toString i
    finding_name := jsOr (rowGet row "finding_name") (jsOr (rowGet row "Finding Name") "")
    finding_category := jsOr (rowGet row "finding_category")
      (jsOr (rowGet row "Category") (jsOr (rowGet row "Finding Category") ""))
    finding_severity := upperStr (jsOr (rowGet row "finding_severity")
      (jsOr (rowGet row "Severity") "INFO"))
    finding_state := upperStr (jsOr (rowGet row "finding_state")
      (jsOr (rowGet row "State") "ACTIVE"))
    finding_class := jsOr (rowGet row "finding_class")
      (jsOr (rowGet row "Finding Class") "MISCONFIGURATION")
    status := if rowGet row "finding_state" = "INACTIVE" then "PASS" else "FAIL"
    resource_name := jsOr (rowGet row "resource_name")
      (jsOr (rowGet row "Resource Name") "")
    resource_type := jsOr (rowGet row "resource_type")
      (jsOr (rowGet row "Resource Type") "")
    resource_project := jsOr (rowGet row "resource_project")
      (jsOr (rowGet row "Project") "")
    resource_location := jsOr (rowGet row "resource_location")
      (jsOr (rowGet row "Location") "")
    finding_description := jsOr (rowGet row "finding_description")
      (jsOr (rowGet row "Description") "")
    remediation := jsOr (rowGet row "remediation")
      (jsOr (rowGet row "Remediation") "")
    compliance := jsOr (rowGet row "compliance")
      (jsOr (rowGet row "Compliance") "")
    scan_time := jsOr (rowGet row "scan_time")
      (jsOr (rowGet row "Scan Time") now) }

/-- The mapping step of `processFile` over all parsed rows
(`results.data.map((row, i) => ...)`). -/
def processFileRows (now : String) (rows : List Row) : List RawFinding :=
  rows.enum.map (fun p => toRawFinding now p.1 p.2)

/-! ## CSV text: the `exportCSV` serializer and a model of `Papa.parse` -/

/-- `Array.prototype.join(sep)`. -/
def joinSep (sep : String) : List String → String
  | [] => ""
  | [a] => a
  | a :: b :: rest => a ++ sep ++ joinSep sep (b :: rest)

/-- The field serializer of `exportCSV`: `` `"${c || ''}"` `` — it wraps the
field in double quotes but does not double embedded quote characters. -/
def quoteField (c : String) : String := "\"" ++ c ++ "\""

/-- String rendering of a `Severity` value (the TS enum is its string). -/
def sevStr : Severity → String
  | .CRITICAL => "CRITICAL"
  | .HIGH => "HIGH"
  | .MEDIUM => "MEDIUM"
  | .LOW => "LOW"
  | .INFO => "INFO"

/-- String rendering of a `FindingStatus` value. -/
def statusStr : FindingStatus → String
  | .FAIL => "FAIL"
  | .PASS => "PASS"

/-- The header row of `exportCSV` (`src/app/findings/page.tsx`, line 108). -/
def exportHeaders : List String :=
  ["Category", "Severity", "Status", "Resource", "Project", "Location", "Description"]

/-- The per-finding row of `exportCSV` (lines 109-117). -/
def exportRow (f : Finding) : List String :=
  [f.finding_category, sevStr f.finding_severity, statusStr f.status,
   f.resource_name, f.resource_project, f.resource_location,
   f.finding_description]

/-- `exportCSV` from `src/app/findings/page.tsx`, lines 107-125 (the CSV
text handed to the download blob):
`[headers, ...rows].map(r => r.map(c => `"${c || ''}"`).join(',')).join('\n')`. -/
def exportCSV (fs : List Finding) : String :=
  joinSep "\n"
    ((exportHeaders :: fs.map exportRow).map
      (fun r => joinSep "," (r.map quoteField)))

/-- Split a character list at every occurrence of `c` (the record splitter of
the `Papa.parse` model; the exporter joins records with `'\n'`). -/
def splitChar (c : Char) : List Char → List (List Char)
  | [] => [[]]
  | x :: xs =>
    if x = c then [] :: splitChar c xs
    else
      match splitChar c xs with
      | [] => [[x]]
      | h :: t => (x :: h) :: t

/-- Scanner state of the `Papa.parse` field scanner: outside any quotes,
inside a quoted field, or immediately after a closing quote (where a second
quote means an escaped quote character). -/
inductive ScanState
  | plain | quoted | closedQ
deriving DecidableEq, Repr

/-- The field scanner of the `Papa.parse` model: a one-character-at-a-time
automaton over a record, with `""` inside a quoted field denoting an escaped
quote and `,` separating fields outside quotes.  `cur` is the current field
reversed, `acc` the finished fields. -/
def parseLineAux : ScanState → List Char → List Char → List String → List String
  | _, [], cur, acc => acc ++ [String.mk cur.reverse]
  | .quoted, c :: rest, cur, acc =>
    if c = '"' then parseLineAux .closedQ rest cur acc
    else parseLineAux .quoted rest (c :: cur) acc
  | .closedQ, c :: rest, cur, acc =>
    if c = '"' then parseLineAux .quoted rest ('"' :: cur) acc
    else if c = ',' then parseLineAux .plain rest [] (acc ++ [String.mk cur.reverse])
    else parseLineAux .plain rest (c :: cur) acc
  | .plain, c :: rest, cur, acc =>
    if c = ',' then parseLineAux .plain rest [] (acc ++ [String.mk cur.reverse])
    else if c = '"' ∧ cur = [] then parseLineAux .quoted rest cur acc
    else parseLineAux .plain rest (c :: cur) acc

/-- Parse one CSV record into its fields. -/
def parseLine (l : List Char) : List String := parseLineAux .plain l [] []

/-- Model of `Papa.parse(text, { header: true, skipEmptyLines: true })` on
well-formed delimited text: split into records at newlines, drop empty
records, read the first record as the header row and key every further
record by it (a missing trailing cell is an absent key, which `rowGet`
reads as `""`, matching an `undefined` field). -/
def papaParse (s : String) : List Row :=
  match (splitChar '\n' s.data).filter (fun l => !l.isEmpty) with
  | [] => []
  | header :: rest => rest.map (fun line => (parseLine header).zip (parseLine line))

/-- A string free of quote and newline characters; for such fields the
quoting of `exportCSV` is unambiguous delimited text. -/
def cleanStr (s : String) : Bool :=
  !(s.data.any (fun c => c = '"' || c = '\n'))

/-- All fields serialized by `exportCSV` are clean. -/
def cleanFinding (f : Finding) : Bool :=
  (exportRow f).all cleanStr

/-! ## The resource-CSV upload path (`handleFile` in
`src/components/CSVUploader.tsx`, with `parseCSV`/`validateCSVData` from
`src/lib/csvParser.ts`) -/

/-- `ParseError` from `src/types/index.ts` (the optional row number is
irrelevant to the control flow). -/
structure ParseError where
  type : String
  message : String
deriving DecidableEq, Repr

/-- The non-empty-row filter of `parseCSV`:
`Object.values(row).some(val => val && val.toString().trim() !== '')`. -/
def rowNonEmpty (row : Row) : Bool :=
  row.any (fun p => trimStr p.2 != "")

/-- `requiredColumns` of `validateCSVData`. -/
def requiredColumns : List String := ["Project ID", "Instance Name", "Status"]

/-- JS `col in firstRow`. -/
def rowHasKey (row : Row) (k : String) : Bool := row.any (fun p => p.1 == k)

/-- `validateCSVData` from `src/lib/csvParser.ts`, lines 47-72. -/
def validateCSVData (data : List Row) : List ParseError :=
  match data with
  | [] => [⟨"EmptyData", "The CSV file contains no data rows."⟩]
  | firstRow :: _ =>
    requiredColumns.filterMap (fun col =>
      if rowHasKey firstRow col then none
      else some ⟨"MissingColumn",
        "Required column \"" ++ col ++ "\" is missing from the CSV."⟩)

/-- Outcome of the upload handler: either a fatal error banner or a loaded
data set handed to `onDataLoaded`. -/
inductive UploadResult
  | fatal (msg : String)
  | loaded (data : List Row)
deriving DecidableEq, Repr

/-- Whether the handler ended in the fatal-error state. -/
def UploadResult.isFatal : UploadResult → Bool
  | .fatal _ => true
  | .loaded _ => false

/-- `handleFile` from `src/components/CSVUploader.tsx`, lines 154-206.
`parseOutcome` stands for `await parseCSV(file)`: `.error m` is a rejected
parse promise (caught and surfaced as a fatal error), `.ok (rows, errs)`
a completed parse with the raw row mappings and the parse-level error list
produced by the library; the empty-row filter that `parseCSV` applies in
its `complete` callback is applied here to the raw rows. -/
def handleFile (fileName : String) (fileSize : ℕ)
    (parseOutcome : Except String (List Row × List ParseError)) : UploadResult :=
  if !(endsWithStr fileName ".csv") then
    .fatal "Please upload a CSV file"
  else if fileSize > 50 * 1024 * 1024 then
    .fatal "File size exceeds 50MB limit"
  else
    match parseOutcome with
    | .error msg => .fatal msg
    | .ok (rawRows, papaErrors) =>
      let data := rawRows.filter rowNonEmpty
      let validationErrors := validateCSVData data
      let criticalErrors := (papaErrors ++ validationErrors).filter
        (fun e => e.type == "error")
      match criticalErrors with
      | e :: _ => .fatal e.message
      | [] =>
        if data.length = 0 then .fatal "No valid data found in CSV file"
        else .loaded data

/-! ## Sample data used by concrete scenarios, witnesses and counterexamples -/

/-- A resource row with every column empty. -/
def emptyR : ResourceData := ⟨"", "", "", "", "", "", "", "", "", "", ""⟩

/-- A resource row whose `API Access Scopes` cell contains `cloud-platform`. -/
def rApi : ResourceData :=
  { emptyR with projectId := "p", instanceName := "i",
                apiAccessScopes := "cloud-platform" }

/-- A resource row that triggers no issue predicate. -/
def rPlain : ResourceData := { emptyR with projectId := "p", instanceName := "j" }

/-- The inventory of the documented scenario: 5 records, 4 of them with
`API Access Scopes = "cloud-platform"`. -/
def scenario5 : List ResourceData := [rApi, rApi, rApi, rApi, rPlain]

/-- The single issue produced on `scenario5`. -/
def apiIssue : SecurityIssue :=
  ⟨.critical, "Full API Access Granted", 4,
    "VMs with full cloud-platform scope can access all GCP APIs.",
    ["p/i", "p/i", "p/i", "p/i"]⟩

/-- A resource row whose `Confidential VM` cell is `Disabled`. -/
def rConf : ResourceData :=
  { emptyR with projectId := "p", instanceName := "c",
                confidentialVM := "Disabled" }

/-- An all-`CRITICAL` sample finding. -/
def fCrit : Finding :=
  { id := "finding-0", finding_name := "n", finding_category := "PublicBucket",
    finding_severity := .CRITICAL, finding_state := .ACTIVE,
    finding_class := "MISCONFIGURATION", status := .FAIL,
    resource_name := "vm-1", resource_type := "compute.googleapis.com/Instance",
    resource_project := "proj1", resource_location := "us-central1",
    finding_description := "desc", remediation := "fix", compliance := "cis",
    scan_time := "2024-01-01T00:00:00Z" }

/-- An `INFO`/`INACTIVE` sample finding. -/
def fInfo : Finding :=
  { fCrit with finding_severity := .INFO, finding_state := .INACTIVE,
               status := .PASS, resource_project := "proj2" }

/-- One serialized CSV record of `exportCSV`. -/
def lineOf (r : List String) : String := joinSep "," (r.map quoteField)

/-- The fields that survive the export/re-ingest round trip, and the
ingestion defaults taken by the fields the export drops.  `now` is the
ingestion timestamp of the re-ingesting call. -/
def preservedFields (now : String) (f : Finding) (g : RawFinding) : Prop :=
  g.finding_category = f.finding_category ∧
  g.finding_severity = sevStr f.finding_severity ∧
  g.resource_project = f.resource_project ∧
  g.resource_location = f.resource_location ∧
  g.finding_description = f.finding_description ∧
  g.finding_name = "" ∧
  g.finding_state = "ACTIVE" ∧
  g.finding_class = "MISCONFIGURATION" ∧
  g.status = "FAIL" ∧
  g.resource_name = "" ∧
  g.resource_type = "" ∧
  g.remediation = "" ∧
  g.compliance = "" ∧
  g.scan_time = now

/-! ## Helper lemmas -/

theorem jsOr_empty_left (b : String) : jsOr "" b = b := by simp [jsOr]

theorem jsOr_empty_right (a : String) : jsOr a "" = a := by
  by_cases h : a = "" <;> simp [jsOr, h]

theorem sevStr_ne_empty (s : Severity) : sevStr s ≠ "" := by cases s <;> decide

theorem upperStr_sevStr (s : Severity) : upperStr (sevStr s) = sevStr s := by
  cases s <;> rfl

theorem foldl_sub_deduction (t : ℕ) (l : List SecurityIssue) (init : ℚ) :
    l.foldl (fun s i => s - deduction t i) init =
      init - (l.map (deduction t)).sum := by
  induction l generalizing init with
  | nil => simp
  | cons a l ih => simp only [List.foldl_cons, ih, List.map_cons, List.sum_cons]; ring

theorem securityScore_eq_formula (data : List ResourceData) :
    (analyzeSecurityData data).securityScore =
      max 0 (jsRound (100 - ((buildIssues data).map (deduction data.length)).sum)) := by
  have hperm : (sortIssues (buildIssues data)).Perm (buildIssues data) :=
    List.perm_insertionSort _ _
  have hsum : ((sortIssues (buildIssues data)).map (deduction data.length)).sum
      = ((buildIssues data).map (deduction data.length)).sum :=
    (hperm.map _).sum_eq
  simp only [analyzeSecurityData, foldl_sub_deduction, hsum]

theorem buildIssues_scenario5 : buildIssues scenario5 = [apiIssue] := by
  have h1 : scenario5.filter shieldedOff = [] := by rfl
  have h2 : scenario5.filter fullApi = [rApi, rApi, rApi, rApi] := by rfl
  have h3 : scenario5.filter hasExternalIP = [] := by rfl
  have h4 : scenario5.filter noAgent = [] := by rfl
  have h5 : scenario5.filter noDelProtection = [] := by rfl
  have h6 : scenario5.filter ipFwdEnabled = [] := by rfl
  have h7 : scenario5.filter confDisabled = [] := by rfl
  simp only [buildIssues, h1, h2, h3, h4, h5, h6, h7,
    List.length_nil, List.length_cons]
  norm_num [apiIssue, resourceKey, rApi, emptyR, scenario5]
  all_goals decide

/-! ## Claims -/

/-- C10: `analyzeSecurityData` is total on the empty resource collection and
needs no caller-side guard: on `[]` it returns `totalResources = 0`,
`runningInstances = 0`, `stoppedInstances = 0`, an empty issues list and
`securityScore = 100` (the deduction loop runs over an empty issue list, so
no deduction — and hence no division — is ever computed). -/
theorem analyzeSecurityData_empty_total :
    (analyzeSecurityData []).totalResources = 0 ∧
    (analyzeSecurityData []).runningInstances = 0 ∧
    (analyzeSecurityData []).stoppedInstances = 0 ∧
    (analyzeSecurityData []).issues = [] ∧
    (analyzeSecurityData []).securityScore = 100 := by
  have hb : buildIssues [] = [] := by norm_num [buildIssues]
  refine ⟨rfl, rfl, rfl, ?_, ?_⟩
  · simp only [analyzeSecurityData, hb]; rfl
  · simp only [analyzeSecurityData, hb]
    norm_num [sortIssues, jsRound, List.insertionSort, List.foldl]

/-- C4: for every non-empty resource collection the security score is
`max(0, round(100 − Σ min(weight·(count/total)·10, weight·3)))` summed over
the triggered issues; and the documented 5-record scenario with 4
`cloud-platform` scope rows yields exactly the one critical issue with
count 4 and a security score of 55. -/
theorem securityScore_formula_and_scenario :
    (∀ data : List ResourceData, data ≠ [] →
      (analyzeSecurityData data).securityScore =
        max 0 (jsRound (100 - ((buildIssues data).map (deduction data.length)).sum))) ∧
    (analyzeSecurityData scenario5).issues = [apiIssue] ∧
    apiIssue.severity = .critical ∧ apiIssue.count = 4 ∧
    (analyzeSecurityData scenario5).securityScore = 55 := by
  refine ⟨fun data _ => securityScore_eq_formula data, ?_, rfl, rfl, ?_⟩
  · have hs : sortIssues [apiIssue] = [apiIssue] := rfl
    simp only [analyzeSecurityData, buildIssues_scenario5, hs]
  · have hs : sortIssues [apiIssue] = [apiIssue] := rfl
    simp only [analyzeSecurityData, buildIssues_scenario5, hs, List.foldl]
    norm_num [deduction, issueWeight, apiIssue, jsRound, scenario5]

/-- C4 witness: the general formula applied to the concrete scenario. -/
theorem securityScore_formula_witness :
    (analyzeSecurityData scenario5).securityScore =
      max 0 (jsRound (100 - ((buildIssues scenario5).map (deduction scenario5.length)).sum)) :=
  securityScore_formula_and_scenario.1 scenario5 (by decide)

/-- C6: for every finding collection the summary satisfies
`passed + failed = total`, and each finding satisfies exactly one of the
two counting predicates (the pass predicate or its negation). -/
theorem passed_add_failed_eq_total : ∀ fs : List Finding,
    (calculateSummary fs).passed + (calculateSummary fs).failed =
      (calculateSummary fs).total ∧
    ∀ f ∈ fs, (passPred f = true ∧ (!passPred f) = false) ∨
      (passPred f = false ∧ (!passPred f) = true) := by
  intro fs
  constructor
  · show fs.countP passPred + fs.countP (fun f => !passPred f) = fs.length
    induction fs with
    | nil => rfl
    | cons f l ih =>
      simp only [List.countP_cons, List.length_cons]
      cases h : passPred f <;> simp [h] <;> omega
  · intro f _
    cases h : passPred f <;> simp [h]

/-- C6 witness: the partition identity at a concrete two-finding scan. -/
theorem passed_add_failed_witness :
    ((calculateSummary [fCrit, fInfo]).passed + (calculateSummary [fCrit, fInfo]).failed =
      (calculateSummary [fCrit, fInfo]).total) ∧
    ((passPred fInfo = true ∧ (!passPred fInfo) = false) ∨
      (passPred fInfo = false ∧ (!passPred fInfo) = true)) := by
  have h := passed_add_failed_eq_total [fCrit, fInfo]
  exact ⟨h.1, h.2 fInfo (by decide)⟩

theorem sum_severity_counts (fs : List Finding) :
    fs.countP (fun f => f.finding_severity == .CRITICAL) +
    fs.countP (fun f => f.finding_severity == .HIGH) +
    fs.countP (fun f => f.finding_severity == .MEDIUM) +
    fs.countP (fun f => f.finding_severity == .LOW) +
    fs.countP (fun f => f.finding_severity == .INFO) = fs.length := by
  induction fs with
  | nil => rfl
  | cons f l ih =>
    simp only [List.countP_cons, List.length_cons]
    cases f.finding_severity <;> simp <;> omega

theorem riskPointsOf_expand (fs : List Finding) :
    riskPointsOf fs =
      fs.countP (fun f => f.finding_severity == .CRITICAL) * 10 +
      fs.countP (fun f => f.finding_severity == .HIGH) * 5 +
      fs.countP (fun f => f.finding_severity == .MEDIUM) * 2 +
      fs.countP (fun f => f.finding_severity == .LOW) * 1 := by
  simp [riskPointsOf, severityKeys, SEVERITY_CONFIG_weight]
  ring

theorem riskPointsOf_le (fs : List Finding) : riskPointsOf fs ≤ 10 * fs.length := by
  have h := sum_severity_counts fs
  rw [riskPointsOf_expand]
  omega

theorem jsRound_div_form (R n : ℕ) (hn : n ≠ 0) :
    jsRound ((R : ℚ) / ((n * 10 : ℕ) : ℚ) * 100) =
      ((200 * R + 10 * n) / (20 * n) : ℕ) := by
  have hn' : ((n : ℚ)) ≠ 0 := Nat.cast_ne_zero.mpr hn
  have h1 : (R : ℚ) / ((n * 10 : ℕ) : ℚ) * 100 + 1/2 =
      ((200 * R + 10 * n : ℕ) : ℚ) / ((20 * n : ℕ) : ℚ) := by
    push_cast
    field_simp
    ring
  rw [jsRound, h1, Rat.floor_natCast_div_natCast]
  exact (Int.ofNat_ediv _ _).symm

theorem calculateSummary_threatScore_def (fs : List Finding) :
    (calculateSummary fs).threatScore =
      if fs.length * 10 > 0 then
        jsRound ((riskPointsOf fs : ℚ) / ((fs.length * 10 : ℕ) : ℚ) * 100)
      else 0 := rfl

/-- C1: the threat score is exactly
`round(100 · Σ(count[s]·weight[s]) / (total·10))` (stated through its
integer-division form), the empty collection scores `0`, every collection
scores an integer in `[0, 100]`, an all-`INFO` collection scores `0`, and a
non-empty all-`CRITICAL` collection scores `100`. -/
theorem threatScore_spec : ∀ fs : List Finding,
    (fs = [] → (calculateSummary fs).threatScore = 0) ∧
    (fs ≠ [] → (calculateSummary fs).threatScore =
      ((200 * riskPointsOf fs + 10 * fs.length) / (20 * fs.length) : ℕ)) ∧
    0 ≤ (calculateSummary fs).threatScore ∧
    (calculateSummary fs).threatScore ≤ 100 ∧
    ((∀ f ∈ fs, f.finding_severity = .INFO) → (calculateSummary fs).threatScore = 0) ∧
    (fs ≠ [] → (∀ f ∈ fs, f.finding_severity = .CRITICAL) →
      (calculateSummary fs).threatScore = 100) := by
  intro fs
  by_cases hfs : fs = []
  · subst hfs
    refine ⟨fun _ => rfl, fun h => absurd rfl h, le_refl 0, ?_,
      fun _ => rfl, fun h => absurd rfl h⟩
    rw [show (calculateSummary []).threatScore = 0 from rfl]
    norm_num
  have hlen : fs.length ≠ 0 := fun h => hfs (List.length_eq_zero.mp h)
  have hform : (calculateSummary fs).threatScore =
      ((200 * riskPointsOf fs + 10 * fs.length) / (20 * fs.length) : ℕ) := by
    rw [calculateSummary_threatScore_def, if_pos (by omega), jsRound_div_form _ _ hlen]
  refine ⟨fun h => absurd h hfs, fun _ => hform, ?_, ?_, ?_, ?_⟩
  · rw [hform]; exact Int.ofNat_nonneg _
  · rw [hform]
    have hle := riskPointsOf_le fs
    have : (200 * riskPointsOf fs + 10 * fs.length) / (20 * fs.length) < 101 := by
      rw [Nat.div_lt_iff_lt_mul (by omega)]
      omega
    exact_mod_cast Nat.lt_succ_iff.mp this
  · intro hinfo
    have hzero : riskPointsOf fs = 0 := by
      rw [riskPointsOf_expand]
      have hc : fs.countP (fun f => f.finding_severity == Severity.CRITICAL) = 0 :=
        List.countP_eq_zero.mpr (fun f hf => by simp [hinfo f hf])
      have hh : fs.countP (fun f => f.finding_severity == Severity.HIGH) = 0 :=
        List.countP_eq_zero.mpr (fun f hf => by simp [hinfo f hf])
      have hm : fs.countP (fun f => f.finding_severity == Severity.MEDIUM) = 0 :=
        List.countP_eq_zero.mpr (fun f hf => by simp [hinfo f hf])
      have hl : fs.countP (fun f => f.finding_severity == Severity.LOW) = 0 :=
        List.countP_eq_zero.mpr (fun f hf => by simp [hinfo f hf])
      omega
    rw [hform, hzero]
    have : (200 * 0 + 10 * fs.length) / (20 * fs.length) = 0 :=
      Nat.div_eq_of_lt (by omega)
    exact_mod_cast this
  · intro _ hcrit
    have hC : fs.countP (fun f => f.finding_severity == Severity.CRITICAL) = fs.length :=
      List.countP_eq_length.mpr (fun f hf => by simp [hcrit f hf])
    have hH : fs.countP (fun f => f.finding_severity == Severity.HIGH) = 0 :=
      List.countP_eq_zero.mpr (fun f hf => by simp [hcrit f hf])
    have hM : fs.countP (fun f => f.finding_severity == Severity.MEDIUM) = 0 :=
      List.countP_eq_zero.mpr (fun f hf => by simp [hcrit f hf])
    have hL : fs.countP (fun f => f.finding_severity == Severity.LOW) = 0 :=
      List.countP_eq_zero.mpr (fun f hf => by simp [hcrit f hf])
    have hR : riskPointsOf fs = 10 * fs.length := by
      rw [riskPointsOf_expand, hC, hH, hM, hL]; ring
    rw [hform, hR]
    have h20 : 0 < 20 * fs.length := by omega
    have heq : 200 * (10 * fs.length) + 10 * fs.length =
        20 * fs.length * 100 + 10 * fs.length := by ring
    have : (200 * (10 * fs.length) + 10 * fs.length) / (20 * fs.length) = 100 := by
      rw [heq, Nat.mul_add_div h20, Nat.div_eq_of_lt (by omega)]
    exact_mod_cast this

/-- C1 witness: a singleton `CRITICAL` scan scores 100, a singleton `INFO`
scan scores 0, and the empty scan scores 0. -/
theorem threatScore_spec_witness :
    (calculateSummary [fCrit]).threatScore = 100 ∧
    (calculateSummary [fInfo]).threatScore = 0 ∧
    (calculateSummary []).threatScore = 0 :=
  ⟨(threatScore_spec [fCrit]).2.2.2.2.2 (by decide) (by decide),
   (threatScore_spec [fInfo]).2.2.2.2.1 (by decide),
   (threatScore_spec []).1 rfl⟩

theorem dedSum_perm {rs rs' : List ResourceData} (h : rs.Perm rs') :
    ((buildIssues rs).map (deduction rs.length)).sum =
      ((buildIssues rs').map (deduction rs'.length)).sum := by
  have hlen := h.length_eq
  have h1 := (h.filter shieldedOff).length_eq
  have h2 := (h.filter fullApi).length_eq
  have h3 := (h.filter hasExternalIP).length_eq
  have h4 := (h.filter noAgent).length_eq
  have h5 := (h.filter noDelProtection).length_eq
  have h6 := (h.filter ipFwdEnabled).length_eq
  have h7 := (h.filter confDisabled).length_eq
  simp only [buildIssues, List.map_append, List.sum_append,
    apply_ite (List.map (deduction rs.length)),
    apply_ite (List.map (deduction rs'.length)),
    apply_ite List.sum, List.map_cons, List.map_nil, List.sum_cons,
    List.sum_nil, deduction]
  rw [hlen, h1, h2, h3, h4, h5, h6, h7]

/-- C7: aggregation and scoring are permutation-invariant: reordering the
resource collection leaves the `byProject`/`byStatus`/`byZone` count tables
and the security score unchanged, and reordering the finding collection
leaves the `bySeverity`/`byService`/`byProject` tables, the
passed/failed/total counts and the threat score unchanged. -/
theorem aggregation_perm_invariant :
    ∀ (rs rs' : List ResourceData) (fs fs' : List Finding),
      rs.Perm rs' → fs.Perm fs' →
      (analyzeSecurityData rs).byProject = (analyzeSecurityData rs').byProject ∧
      (analyzeSecurityData rs).byStatus = (analyzeSecurityData rs').byStatus ∧
      (analyzeSecurityData rs).byZone = (analyzeSecurityData rs').byZone ∧
      (analyzeSecurityData rs).securityScore = (analyzeSecurityData rs').securityScore ∧
      (calculateSummary fs).bySeverity = (calculateSummary fs').bySeverity ∧
      (calculateSummary fs).byService = (calculateSummary fs').byService ∧
      (calculateSummary fs).byProject = (calculateSummary fs').byProject ∧
      (calculateSummary fs).passed = (calculateSummary fs').passed ∧
      (calculateSummary fs).failed = (calculateSummary fs').failed ∧
      (calculateSummary fs).total = (calculateSummary fs').total ∧
      (calculateSummary fs).threatScore = (calculateSummary fs').threatScore := by
  intro rs rs' fs fs' hr hf
  have hrisk : riskPointsOf fs = riskPointsOf fs' := by
    unfold riskPointsOf
    exact congrArg List.sum (List.map_congr_left
      (fun s _ => by rw [hf.countP_eq]))
  refine ⟨funext fun k => hr.countP_eq _, funext fun k => hr.countP_eq _,
    funext fun k => hr.countP_eq _, ?_,
    funext fun s => hf.countP_eq _, funext fun k => hf.countP_eq _,
    funext fun k => hf.countP_eq _, hf.countP_eq _, hf.countP_eq _,
    hf.length_eq, ?_⟩
  · rw [securityScore_eq_formula, securityScore_eq_formula, dedSum_perm hr]
  · rw [calculateSummary_threatScore_def, calculateSummary_threatScore_def,
      hf.length_eq, hrisk]

/-- C7 witness: invariance at a concrete transposition of a two-record
inventory and a two-finding scan. -/
theorem aggregation_perm_invariant_witness :
    (analyzeSecurityData [rApi, rPlain]).securityScore =
      (analyzeSecurityData [rPlain, rApi]).securityScore ∧
    (calculateSummary [fCrit, fInfo]).threatScore =
      (calculateSummary [fInfo, fCrit]).threatScore := by
  have h := aggregation_perm_invariant [rApi, rPlain] [rPlain, rApi]
    [fCrit, fInfo] [fInfo, fCrit] (List.Perm.swap _ _ _) (List.Perm.swap _ _ _)
  exact ⟨h.2.2.2.1, h.2.2.2.2.2.2.2.2.2.2⟩

theorem mem_ite_singleton {α : Type} (c : Prop) [Decidable c] (x i : α) :
    i ∈ (if c then [x] else []) ↔ c ∧ i = x := by
  split_ifs with hc <;> simp [hc]

theorem mem_issues_iff (data : List ResourceData) (i : SecurityIssue) :
    i ∈ (analyzeSecurityData data).issues ↔ i ∈ buildIssues data := by
  simp only [analyzeSecurityData]
  exact (List.perm_insertionSort _ _).mem_iff

theorem mem_buildIssues (data : List ResourceData) (i : SecurityIssue) :
    i ∈ buildIssues data ↔
      ((data.filter shieldedOff).length > 0 ∧
        i = ⟨.high, "Shielded VM Disabled", (data.filter shieldedOff).length,
          "VMs without Secure Boot enabled are vulnerable to boot-level malware.",
          (data.filter shieldedOff).map resourceKey⟩) ∨
      ((data.filter fullApi).length > 0 ∧
        i = ⟨.critical, "Full API Access Granted", (data.filter fullApi).length,
          "VMs with full cloud-platform scope can access all GCP APIs.",
          (data.filter fullApi).map resourceKey⟩) ∨
      ((data.filter hasExternalIP).length > 0 ∧
        i = ⟨.medium, "External IP Assigned", (data.filter hasExternalIP).length,
          "VMs with external IPs are directly accessible from the internet.",
          (data.filter hasExternalIP).map resourceKey⟩) ∨
      ((data.filter noAgent).length > 0 ∧
        i = ⟨.low, "OS Agent Not Installed", (data.filter noAgent).length,
          "VMs without OS Config agent cannot be managed for patches.",
          (data.filter noAgent).map resourceKey⟩) ∨
      ((data.filter noDelProtection).length > 0 ∧
        i = ⟨.low, "Deletion Protection Disabled", (data.filter noDelProtection).length,
          "VMs can be accidentally deleted without protection.",
          (data.filter noDelProtection).map resourceKey⟩) ∨
      ((data.filter ipFwdEnabled).length > 0 ∧
        i = ⟨.medium, "IP Forwarding Enabled", (data.filter ipFwdEnabled).length,
          "VMs can route traffic, potentially bypassing network controls.",
          (data.filter ipFwdEnabled).map resourceKey⟩) ∨
      (((data.filter confDisabled).length : ℚ) > (data.length : ℚ) * 0.8 ∧
        i = ⟨.low, "Confidential VM Not Used", (data.filter confDisabled).length,
          "Consider Confidential VMs for processing sensitive data.",
          ((data.filter confDisabled).take 10).map resourceKey⟩) := by
  simp only [buildIssues, List.mem_append, mem_ite_singleton, or_assoc]

/-- C5: the Confidential-VM advisory issue is present iff strictly more than
`0.8 · total` records have the feature `Disabled` (absent at exactly `0.8`);
when present it has severity `low` and lists only the first 10 matching
records, while every other issue lists every record matching its
predicate. -/
theorem confidentialVM_advisory : ∀ data : List ResourceData,
    ((∃ i ∈ (analyzeSecurityData data).issues, i.title = "Confidential VM Not Used") ↔
      ((data.filter confDisabled).length : ℚ) > (data.length : ℚ) * 0.8) ∧
    (∀ i ∈ (analyzeSecurityData data).issues,
      i.title = "Confidential VM Not Used" →
        i.severity = .low ∧
        i.affectedResources = ((data.filter confDisabled).take 10).map resourceKey) ∧
    (∀ i ∈ (analyzeSecurityData data).issues,
      i.title ≠ "Confidential VM Not Used" →
        (i.title = "Shielded VM Disabled" ∧
          i.affectedResources = (data.filter shieldedOff).map resourceKey) ∨
        (i.title = "Full API Access Granted" ∧
          i.affectedResources = (data.filter fullApi).map resourceKey) ∨
        (i.title = "External IP Assigned" ∧
          i.affectedResources = (data.filter hasExternalIP).map resourceKey) ∨
        (i.title = "OS Agent Not Installed" ∧
          i.affectedResources = (data.filter noAgent).map resourceKey) ∨
        (i.title = "Deletion Protection Disabled" ∧
          i.affectedResources = (data.filter noDelProtection).map resourceKey) ∨
        (i.title = "IP Forwarding Enabled" ∧
          i.affectedResources = (data.filter ipFwdEnabled).map resourceKey)) := by
  intro data
  refine ⟨⟨?_, ?_⟩, ?_, ?_⟩
  · rintro ⟨i, hi, htitle⟩
    rw [mem_issues_iff, mem_buildIssues] at hi
    rcases hi with ⟨_, rfl⟩ | ⟨_, rfl⟩ | ⟨_, rfl⟩ | ⟨_, rfl⟩ | ⟨_, rfl⟩ |
      ⟨_, rfl⟩ | ⟨hc, rfl⟩ <;> first | exact hc | simp at htitle
  · intro hc
    refine ⟨⟨.low, "Confidential VM Not Used", (data.filter confDisabled).length,
      "Consider Confidential VMs for processing sensitive data.",
      ((data.filter confDisabled).take 10).map resourceKey⟩, ?_, rfl⟩
    rw [mem_issues_iff, mem_buildIssues]
    exact Or.inr (Or.inr (Or.inr (Or.inr (Or.inr (Or.inr ⟨hc, rfl⟩)))))
  · intro i hi htitle
    rw [mem_issues_iff, mem_buildIssues] at hi
    rcases hi with ⟨_, rfl⟩ | ⟨_, rfl⟩ | ⟨_, rfl⟩ | ⟨_, rfl⟩ | ⟨_, rfl⟩ |
      ⟨_, rfl⟩ | ⟨_, rfl⟩ <;> simp_all
  · intro i hi htitle
    rw [mem_issues_iff, mem_buildIssues] at hi
    rcases hi with ⟨_, rfl⟩ | ⟨_, rfl⟩ | ⟨_, rfl⟩ | ⟨_, rfl⟩ | ⟨_, rfl⟩ |
      ⟨_, rfl⟩ | ⟨_, rfl⟩ <;> simp_all

/-- C5 witness: a one-record inventory whose single record has
`Confidential VM = Disabled` produces the advisory issue. -/
theorem confidentialVM_advisory_witness :
    ∃ i ∈ (analyzeSecurityData [rConf]).issues,
      i.title = "Confidential VM Not Used" := by
  refine (confidentialVM_advisory [rConf]).1.mpr ?_
  have h : ([rConf].filter confDisabled) = [rConf] := by rfl
  rw [h]
  norm_num

/-- C2 (code evaluation at the failing inputs): `processFile` derives
`status` from the raw snake_case `finding_state` cell before alias
resolution and uppercasing, while `finding_state` itself is alias-resolved
and uppercased.  A state arriving under the `State` alias header, or in
lower case under the snake_case header, therefore yields a finding with
`finding_state = "INACTIVE"` but `status = "FAIL"`, violating the
`status == PASS ↔ finding_state == INACTIVE` invariant; only the exact
upper-case snake_case cell yields `PASS`. -/
theorem status_state_mismatch :
    ((processFileRows "T" [[("State", "INACTIVE"), ("Category", "x")]]).map
      (fun g => (g.finding_state, g.status)) = [("INACTIVE", "FAIL")]) ∧
    ((processFileRows "T" [[("finding_state", "inactive")]]).map
      (fun g => (g.finding_state, g.status)) = [("INACTIVE", "FAIL")]) ∧
    ((processFileRows "T" [[("finding_state", "INACTIVE")]]).map
      (fun g => (g.finding_state, g.status)) = [("INACTIVE", "PASS")]) := by
  refine ⟨?_, ?_, ?_⟩ <;> rfl

/-- C3 counterexample: a present severity cell whose uppercased value is
not one of the five enum values is passed through unchanged (uppercased),
not normalized to `INFO`. -/
theorem severity_passthrough_cex :
    ((processFileRows "T" [[("Severity", "weird"), ("Category", "x")]]).map
      (fun g => g.finding_severity) = ["WEIRD"]) ∧
    "WEIRD" ∉ (["CRITICAL", "HIGH", "MEDIUM", "LOW", "INFO"] : List String) := by
  exact ⟨rfl, by decide⟩

/-- C3 (amended): a severity cell that is absent or empty under both the
snake_case header and the `Severity` alias is normalized to `INFO`; a
present non-empty cell is uppercased and passed through unchanged — whatever
its value — and never rejected. -/
theorem severity_normalization : ∀ (now : String) (i : ℕ) (row : Row),
    ((rowGet row "finding_severity" = "" ∧ rowGet row "Severity" = "") →
      (toRawFinding now i row).finding_severity = "INFO") ∧
    (rowGet row "finding_severity" ≠ "" →
      (toRawFinding now i row).finding_severity =
        upperStr (rowGet row "finding_severity")) ∧
    ((rowGet row "finding_severity" = "" ∧ rowGet row "Severity" ≠ "") →
      (toRawFinding now i row).finding_severity =
        upperStr (rowGet row "Severity")) := by
  intro now i row
  refine ⟨?_, ?_, ?_⟩
  · rintro ⟨h1, h2⟩
    simp [toRawFinding, jsOr, h1, h2]
    rfl
  · intro h1
    simp [toRawFinding, jsOr, h1]
  · rintro ⟨h1, h2⟩
    simp [toRawFinding, jsOr, h1, h2]

/-- C3 witness: the amended normalization applied at concrete rows. -/
theorem severity_normalization_witness :
    (toRawFinding "T" 0 ([("Category", "x")] : Row)).finding_severity = "INFO" ∧
    (toRawFinding "T" 0 ([("Severity", "low"), ("Category", "x")] : Row)).finding_severity
      = upperStr "low" := by
  constructor
  · exact (severity_normalization "T" 0 [("Category", "x")]).1 ⟨rfl, rfl⟩
  · exact (severity_normalization "T" 0 [("Severity", "low"), ("Category", "x")]).2.2
      ⟨rfl, by decide⟩

theorem validateCSVData_types (d : List Row) :
    ∀ e ∈ validateCSVData d, e.type = "EmptyData" ∨ e.type = "MissingColumn" := by
  cases d with
  | nil => intro e he; simp [validateCSVData] at he; simp [he]
  | cons r t =>
    intro e he
    simp only [validateCSVData, List.mem_filterMap] at he
    obtain ⟨col, _, hcol⟩ := he
    split at hcol
    · exact absurd hcol (by simp)
    · right
      cases hcol
      rfl

/-- C9: the resource-CSV upload handler ends in a fatal error exactly when
the file name does not end in `.csv`, the size exceeds `50 · 1024 · 1024`
bytes, the content could not be parsed as delimited text, or no non-empty
row survives filtering; a missing required column is not among the fatal
conditions, so it alone never aborts the upload when row data exists.
The hypothesis pins the parse-level diagnostics to the kinds the CSV
library emits (`Quotes`, `Delimiter`, `FieldMismatch`), none of which is
the kind `error` that the handler treats as critical. -/
theorem handleFile_fatal_iff :
    ∀ (name : String) (size : ℕ)
      (po : Except String (List Row × List ParseError)),
      (∀ rows errs, po = .ok (rows, errs) → ∀ e ∈ errs,
        e.type ∈ (["Quotes", "Delimiter", "FieldMismatch"] : List String)) →
      ((handleFile name size po).isFatal = true ↔
        (endsWithStr name ".csv" = false ∨ size > 50 * 1024 * 1024 ∨
          (∃ m, po = .error m) ∨
          (∃ rows errs, po = .ok (rows, errs) ∧ rows.filter rowNonEmpty = []))) := by
  intro name size po hpapa
  unfold handleFile
  by_cases hcsv : endsWithStr name ".csv"
  · rw [hcsv]
    simp only [Bool.not_true, Bool.false_eq_true, if_false]
    by_cases hsize : size > 50 * 1024 * 1024
    · simp [hsize, UploadResult.isFatal]
    · rw [if_neg hsize]
      cases po with
      | error m => simp [UploadResult.isFatal, hcsv, hsize]
      | ok pr =>
        obtain ⟨rawRows, papaErrors⟩ := pr
        have hcrit : (papaErrors ++ validateCSVData (rawRows.filter rowNonEmpty)).filter
            (fun e => e.type == "error") = [] := by
          rw [List.filter_eq_nil_iff]
          intro e he
          rcases List.mem_append.mp he with h | h
          · have := hpapa rawRows papaErrors rfl e h
            simp only [List.mem_cons, List.mem_singleton] at this
            rcases this with h' | h' | h' | h' <;> simp_all
          · rcases validateCSVData_types _ e h with h' | h' <;> simp [h']
        simp only [hcrit]
        by_cases hz : (rawRows.filter rowNonEmpty).length = 0
        · rw [if_pos hz]
          simp only [UploadResult.isFatal, hcsv, hsize, true_iff]
          exact Or.inr (Or.inr (Or.inr ⟨rawRows, papaErrors, rfl,
            List.length_eq_zero.mp hz⟩))
        · rw [if_neg hz]
          simp only [UploadResult.isFatal, Bool.false_eq_true, false_iff]
          push_neg
          refine ⟨by simp [hcsv], by omega, by simp, ?_⟩
          rintro rows errs ⟨rfl, rfl⟩
          exact fun h => hz (by rw [h]; rfl)
  · simp only [Bool.not_eq_true] at hcsv
    simp [hcsv, UploadResult.isFatal]

/-- C9 witness: a well-named small upload with one non-empty row loads
without a fatal error even though every required column is missing, and the
same upload with zero usable rows is fatal. -/
theorem handleFile_fatal_iff_witness :
    (handleFile "scan.csv" 100 (.ok ([[("Zone", "z")]], []))).isFatal = false ∧
    (handleFile "scan.csv" 100 (.ok ([[("Zone", " ")]], []))).isFatal = true := by
  constructor
  · have h := handleFile_fatal_iff "scan.csv" 100 (.ok ([[("Zone", "z")]], []))
      (by rintro rows errs ⟨rfl, rfl⟩ e he; exact absurd he (by simp))
    refine Bool.not_eq_true _ |>.mp ?_
    rw [h]
    push_neg
    refine ⟨by decide, by norm_num, by simp, ?_⟩
    rintro rows errs ⟨rfl, rfl⟩
    decide
  · have h := handleFile_fatal_iff "scan.csv" 100 (.ok ([[("Zone", " ")]], []))
      (by rintro rows errs ⟨rfl, rfl⟩ e he; exact absurd he (by simp))
    rw [h]
    exact Or.inr (Or.inr (Or.inr ⟨_, _, rfl, by decide⟩))

theorem mk_data (s : String) : String.mk s.data = s := rfl

theorem jsOr_ne_empty {a : String} (b : String) (h : a ≠ "") : jsOr a b = a := by
  simp [jsOr, h]

theorem data_quoteField (f : String) :
    (quoteField f).data = '"' :: (f.data ++ ['"']) := by
  show (("\"" ++ f) ++ "\"").data = _
  rw [String.data_append, String.data_append]
  rfl

theorem lineOf_single (a : String) : lineOf [a] = quoteField a := rfl

theorem lineOf_cons₂ (a b : String) (rest : List String) :
    lineOf (a :: b :: rest) = quoteField a ++ "," ++ lineOf (b :: rest) := rfl

theorem parseLineAux_quoted (fdata : List Char) (rest : List Char)
    (cur : List Char) (acc : List String) (hq : '"' ∉ fdata) :
    parseLineAux .quoted (fdata ++ '"' :: rest) cur acc =
      parseLineAux .closedQ rest (fdata.reverse ++ cur) acc := by
  induction fdata generalizing cur with
  | nil => simp [parseLineAux]
  | cons c cs ih =>
    have hc : ¬(c = '"') := fun h => hq (by simp [h])
    simp only [List.cons_append, parseLineAux, if_neg hc, List.append_eq]
    rw [ih (c :: cur) (fun h => hq (List.mem_cons_of_mem _ h))]
    simp

theorem parseLineAux_open (f : String) (rest : List Char) (acc : List String)
    (hq : '"' ∉ f.data) :
    parseLineAux .plain ('"' :: (f.data ++ '"' :: rest)) [] acc =
      parseLineAux .closedQ rest f.data.reverse acc := by
  have h1 : ¬(('"' : Char) = ',') := by decide
  have h2 : ('"' : Char) = '"' ∧ ([] : List Char) = [] := ⟨rfl, rfl⟩
  simp only [parseLineAux, if_neg h1, if_pos h2]
  rw [parseLineAux_quoted f.data rest [] acc hq]
  simp

theorem parseLineAux_closedQ_comma (rest : List Char) (cur : List Char)
    (acc : List String) :
    parseLineAux .closedQ (',' :: rest) cur acc =
      parseLineAux .plain rest [] (acc ++ [String.mk cur.reverse]) := by
  have h1 : ¬((',' : Char) = '"') := by decide
  simp [parseLineAux, if_neg h1]

theorem parseLineAux_fields (fields : List String) (acc : List String)
    (h : ∀ f ∈ fields, '"' ∉ f.data) (hne : fields ≠ []) :
    parseLineAux .plain (lineOf fields).data [] acc = acc ++ fields := by
  induction fields generalizing acc with
  | nil => exact absurd rfl hne
  | cons f rest ih =>
    have hf : '"' ∉ f.data := h f (by simp)
    cases rest with
    | nil =>
      rw [lineOf_single, data_quoteField,
        show ('"' :: (f.data ++ ['"'])) = '"' :: (f.data ++ '"' :: []) from rfl,
        parseLineAux_open f [] acc hf]
      show acc ++ [String.mk f.data.reverse.reverse] = acc ++ [f]
      rw [List.reverse_reverse, mk_data]
    | cons f2 rest2 =>
      have hdata : (lineOf (f :: f2 :: rest2)).data =
          '"' :: (f.data ++ '"' :: (',' :: (lineOf (f2 :: rest2)).data)) := by
        rw [lineOf_cons₂, String.data_append, String.data_append, data_quoteField]
        simp
      rw [hdata, parseLineAux_open f _ acc hf, parseLineAux_closedQ_comma,
        ih _ (fun g hg => h g (by simp [hg])) (by simp)]
      rw [List.reverse_reverse, mk_data]
      simp

theorem parseLine_lineOf (fields : List String)
    (h : ∀ f ∈ fields, '"' ∉ f.data) (hne : fields ≠ []) :
    parseLine (lineOf fields).data = fields :=
  parseLineAux_fields fields [] h hne

theorem splitChar_not_mem {c : Char} {l : List Char} (h : c ∉ l) :
    splitChar c l = [l] := by
  induction l with
  | nil => rfl
  | cons x xs ih =>
    have hx : ¬(x = c) := fun he => h (by simp [he])
    simp [splitChar, hx, ih (fun hm => h (by simp [hm]))]

theorem splitChar_append (c : Char) (l1 l2 : List Char) (h : c ∉ l1) :
    splitChar c (l1 ++ c :: l2) = l1 :: splitChar c l2 := by
  induction l1 with
  | nil => simp [splitChar]
  | cons x xs ih =>
    have hx : ¬(x = c) := fun he => h (by simp [he])
    simp [splitChar, hx, ih (fun hm => h (by simp [hm]))]

theorem splitChar_joinSep_lines (ls : List String)
    (h : ∀ l ∈ ls, '\n' ∉ l.data) (hne : ls ≠ []) :
    splitChar '\n' (joinSep "\n" ls).data = ls.map String.data := by
  induction ls with
  | nil => exact absurd rfl hne
  | cons a rest ih =>
    cases rest with
    | nil =>
      show splitChar '\n' a.data = [a.data]
      exact splitChar_not_mem (h a (by simp))
    | cons b rest2 =>
      have hdata : (joinSep "\n" (a :: b :: rest2)).data =
          a.data ++ '\n' :: (joinSep "\n" (b :: rest2)).data := by
        show ((a ++ "\n") ++ joinSep "\n" (b :: rest2)).data = _
        rw [String.data_append, String.data_append]
        simp
      rw [hdata, splitChar_append _ _ _ (h a (by simp)),
        ih (fun l hl => h l (by simp [hl])) (by simp)]
      rfl

theorem cleanStr_no_quote {s : String} (h : cleanStr s = true) : '"' ∉ s.data := by
  intro hm
  simp only [cleanStr, Bool.not_eq_true', List.any_eq_false] at h
  have := h '"' hm
  simp at this

theorem cleanStr_no_newline {s : String} (h : cleanStr s = true) : '\n' ∉ s.data := by
  intro hm
  simp only [cleanStr, Bool.not_eq_true', List.any_eq_false] at h
  have := h '\n' hm
  simp at this

theorem newline_not_mem_lineOf (r : List String) (h : ∀ f ∈ r, '\n' ∉ f.data) :
    '\n' ∉ (lineOf r).data := by
  induction r with
  | nil => simp [lineOf, joinSep]
  | cons f rest ih =>
    cases rest with
    | nil =>
      rw [lineOf_single, data_quoteField]
      simp only [List.mem_cons, List.mem_append, List.mem_singleton]
      rintro (h1 | h2 | h3)
      · exact absurd h1 (by decide)
      · exact h f (by simp) h2
      · exact absurd h3 (by decide)
    | cons g rest2 =>
      rw [lineOf_cons₂, String.data_append, String.data_append, data_quoteField,
        show ("," : String).data = [','] from rfl]
      intro hm
      rcases List.mem_append.mp hm with h12 | h5
      · rcases List.mem_append.mp h12 with h1 | h4
        · rcases List.mem_cons.mp h1 with h1a | h1b
          · exact absurd h1a (by decide)
          · rcases List.mem_append.mp h1b with h2 | h3
            · exact h f (by simp) h2
            · simp at h3
        · simp at h4
      · exact ih (fun x hx => h x (by simp [hx])) h5

theorem lineOf_data_ne_nil (f : String) (rest : List String) :
    (lineOf (f :: rest)).data ≠ [] := by
  cases rest with
  | nil => rw [lineOf_single, data_quoteField]; simp
  | cons g rest2 =>
    rw [lineOf_cons₂, String.data_append, String.data_append, data_quoteField]
    simp

theorem papaParse_exportCSV (fs : List Finding)
    (hclean : ∀ f ∈ fs, cleanFinding f = true) :
    papaParse (exportCSV fs) =
      fs.map (fun f => exportHeaders.zip (exportRow f)) := by
  have hrowclean : ∀ f ∈ fs, ∀ s ∈ exportRow f, cleanStr s = true := by
    intro f hf s hs
    exact List.all_eq_true.mp (hclean f hf) s hs
  have hnol : ∀ l ∈ (exportHeaders :: fs.map exportRow).map lineOf, '\n' ∉ l.data := by
    intro l hl
    simp only [List.mem_map, List.mem_cons] at hl
    obtain ⟨r, hr | hr, rfl⟩ := hl
    · subst hr
      decide
    · obtain ⟨f, hf, rfl⟩ := hr
      exact newline_not_mem_lineOf _
        (fun s hs => cleanStr_no_newline (hrowclean f hf s hs))
  have hsplit : splitChar '\n' (exportCSV fs).data =
      ((exportHeaders :: fs.map exportRow).map lineOf).map String.data :=
    splitChar_joinSep_lines _ hnol (by simp)
  have hne : ∀ l ∈ ((exportHeaders :: fs.map exportRow).map lineOf).map String.data,
      l ≠ [] := by
    intro l hl
    simp only [List.map_map, List.mem_map, List.mem_cons] at hl
    obtain ⟨r, hr | hr, rfl⟩ := hl
    · subst hr; exact lineOf_data_ne_nil _ _
    · obtain ⟨f, _, rfl⟩ := hr
      exact lineOf_data_ne_nil _ _
  have hfilter : (((exportHeaders :: fs.map exportRow).map lineOf).map
        String.data).filter (fun l => !l.isEmpty) =
      ((exportHeaders :: fs.map exportRow).map lineOf).map String.data := by
    rw [List.filter_eq_self]
    intro l hl
    simp [List.isEmpty_iff, hne l hl]
  show (match (splitChar '\n' (exportCSV fs).data).filter (fun l => !l.isEmpty) with
    | [] => ([] : List Row)
    | header :: rest => rest.map (fun line => (parseLine header).zip (parseLine line)))
    = fs.map (fun f => exportHeaders.zip (exportRow f))
  rw [hsplit, hfilter]
  simp only [List.map_cons, List.map_map]
  have hhead : parseLine (lineOf exportHeaders).data = exportHeaders := by decide
  rw [hhead]
  apply List.map_congr_left
  intro f hf
  show exportHeaders.zip (parseLine (lineOf (exportRow f)).data) = _
  rw [parseLine_lineOf (exportRow f)
    (fun s hs => cleanStr_no_quote (hrowclean f hf s hs)) (by simp [exportRow])]

theorem toRawFinding_export (now : String) (i : ℕ) (f : Finding) :
    preservedFields now f (toRawFinding now i (exportHeaders.zip (exportRow f))) := by
  refine ⟨?_, ?_, ?_, ?_, ?_, rfl, rfl, rfl, rfl, rfl, rfl, rfl, rfl, ?_⟩
  · show jsOr "" (jsOr f.finding_category (jsOr "" "")) = f.finding_category
    rw [jsOr_empty_left, jsOr_empty_left, jsOr_empty_right]
  · show upperStr (jsOr "" (jsOr (sevStr f.finding_severity) "INFO")) =
      sevStr f.finding_severity
    rw [jsOr_empty_left, jsOr_ne_empty _ (sevStr_ne_empty _), upperStr_sevStr]
  · show jsOr "" (jsOr f.resource_project "") = f.resource_project
    rw [jsOr_empty_left, jsOr_empty_right]
  · show jsOr "" (jsOr f.resource_location "") = f.resource_location
    rw [jsOr_empty_left, jsOr_empty_right]
  · show jsOr "" (jsOr f.finding_description "") = f.finding_description
    rw [jsOr_empty_left, jsOr_empty_right]
  · show jsOr "" (jsOr "" now) = now
    rw [jsOr_empty_left, jsOr_empty_left]

theorem processFileRows_zip (now : String) (fs : List Finding) :
    List.Forall₂ (preservedFields now) fs
      (processFileRows now (fs.map (fun f => exportHeaders.zip (exportRow f)))) := by
  show List.Forall₂ (preservedFields now) fs
    (((fs.map (fun f => exportHeaders.zip (exportRow f))).enumFrom 0).map
      (fun p => toRawFinding now p.1 p.2))
  generalize 0 = n
  induction fs generalizing n with
  | nil => exact List.Forall₂.nil
  | cons f t ih =>
    simp only [List.map_cons, List.enumFrom, List.map]
    exact List.Forall₂.cons (toRawFinding_export now n f) (ih (n + 1))

/-- C8 (amended): `exportCSV` quotes every field but does not double
embedded quote characters; re-ingesting its output through the Finding
parser is only a partial round trip: for collections whose exported fields
are free of quote and newline characters, the re-ingested collection has
the same length and preserves `finding_category`, the severity string,
`resource_project`, `resource_location` and `finding_description`
per-field, while `finding_name`, `finding_state`, `finding_class`,
`status`, `resource_name`, `resource_type`, `remediation`, `compliance` and
`scan_time` are reset to their ingestion defaults (so the full per-field
equality claimed of the round trip fails). -/
theorem export_reingest_preserved : ∀ (now : String) (fs : List Finding),
    (∀ f ∈ fs, cleanFinding f = true) →
    List.Forall₂ (preservedFields now) fs
      (processFileRows now (papaParse (exportCSV fs))) := by
  intro now fs h
  rw [papaParse_exportCSV fs h]
  exact processFileRows_zip now fs

/-- C8 witness: the partial round trip at a concrete one-finding
collection. -/
theorem export_reingest_preserved_witness :
    List.Forall₂ (preservedFields "T") [fCrit]
      (processFileRows "T" (papaParse (exportCSV [fCrit]))) :=
  export_reingest_preserved "T" [fCrit] (by decide)

/-- C8 counterexample: re-ingesting the export of a finding whose
`resource_name` is `"vm-1"` yields `resource_name = ""` (the export header
`Resource` is not an alias the parser reads), so the round trip is not the
identity modulo ids; and `exportCSV` leaves an embedded quote character
undoubled instead of escaping it. -/
theorem export_reingest_cex :
    ((processFileRows "T" (papaParse (exportCSV [fCrit]))).map
      (fun g => g.resource_name) = [""]) ∧
    fCrit.resource_name = "vm-1" ∧
    quoteField "a\"b" = "\"a\"b\"" ∧
    quoteField "a\"b" ≠ "\"a\"\"b\"" := by
  exact ⟨rfl, rfl, rfl, by decide⟩
